import Mathlib

/-!
Shallow embedding of the crawler's core pipeline:
-   `src/unnamed/part_000` (the package-API module): PyPI version parsing
    (`parsePythonPackageVersion`), version comparison
    (`greaterThanPythonPackageVersion`) and best-version selection
    (the release loop of `queryDependencyPyPI`);
-   `src/src/index.ts`: cursor pagination (`scrapeOrganisation`'s first loop),
    the batched dependency fetch, manifest extraction (`getRepoDependencies`)
    and dependency merging (`mergeDependenciesLists`).

JavaScript runtime behaviour that the source relies on is embedded explicitly:
numbers that may be `NaN` are `Option Int` (`none` is `NaN`), `parseInt`,
`String.prototype.split`-style searches and JS `Map`/`Set` insertion-order
semantics are modelled by the helpers below.
-/

namespace Crawler

/-- JS number that may be `NaN`: `none` is `NaN`. -/
abbrev JSNum := Option Int

/-- JS `>` on numbers: any comparison with `NaN` is `false`. -/
def jsGt (a b : JSNum) : Bool :=
  match a, b with
  | some x, some y => decide (x > y)
  | _, _ => false

/-- JS `!=` on numbers: `NaN != x` is `true` for every `x`, including `NaN`. -/
def jsNe (a b : JSNum) : Bool :=
  match a, b with
  | some x, some y => decide (x ≠ y)
  | _, _ => true

/-- Value of a digit run, base 10. -/
def digitsNum (cs : List Char) : Option Nat :=
  let ds := cs.takeWhile Char.isDigit
  if ds.isEmpty then none
  else some (ds.foldl (fun n c => 10 * n + (c.toNat - 48)) 0)

/-- JS `parseInt(s)` (radix 10): skip spaces, optional sign, longest digit
run; `NaN` when there is no digit. -/
def jsParseInt (cs : List Char) : JSNum :=
  let cs := cs.dropWhile (fun c => c = ' ')
  match cs with
  | '-' :: t => (digitsNum t).map (fun n => -(n : Int))
  | '+' :: t => (digitsNum t).map (fun n => (n : Int))
  | _ => (digitsNum cs).map (fun n => (n : Int))

/-- Whether `sep` occurs as a contiguous substring: JS
`s.split(sep, 2).length == 2` for nonempty `sep`. -/
def occursIn (sep : List Char) : List Char → Bool
  | [] => sep.isEmpty
  | c :: t => sep.isPrefixOf (c :: t) || occursIn sep t

/-- Text before the first occurrence of `sep`: JS `s.split(sep, 2)[0]`. -/
def beforeFirst (sep : List Char) : List Char → List Char
  | [] => []
  | c :: t => if sep.isPrefixOf (c :: t) then [] else c :: beforeFirst sep t

/-- JS `s.split(sep)` for a single-character separator. -/
def splitOnChar (sep : Char) : List Char → List (List Char)
  | [] => [[]]
  | c :: t =>
    let r := splitOnChar sep t
    if c = sep then [] :: r
    else
      match r with
      | [] => [[c]]
      | h :: rest => (c :: h) :: rest

/-- JS `s.startsWith(p)`; also `s.substring(0, p.length) === p`. -/
def strStartsWith (s p : List Char) : Bool := p.isPrefixOf s

/-- JS `s.endsWith(p)`. -/
def strEndsWith (s p : String) : Bool := p.toList.isSuffixOf s.toList

/-- The parsed-version record of `src/unnamed/part_000` (`PythonPackageVersion`).
Numeric fields are JS numbers, so they may be `NaN` (`none`). -/
structure PythonPackageVersion where
  epoch : JSNum
  first : JSNum
  rest : List JSNum
  isPrerelease : Bool
deriving DecidableEq, Repr

/-- One iteration of the `for (let part of parts.slice(1))` loop of
`parsePythonPackageVersion` (part_000 lines 75-98): strip a leading `dev` or
`post` marker or split on an embedded `a`, `b` or `rc`, set the prerelease
flag, and append `parseInt` of what remains. -/
def parseRestPart (v : PythonPackageVersion) (part : List Char) : PythonPackageVersion :=
  let (part2, pre) :=
    if strStartsWith part "dev".toList then (part.drop 3, true)
    else if strStartsWith part "post".toList then (part.drop 4, false)
    else if occursIn "a".toList part then (beforeFirst "a".toList part, true)
    else if occursIn "b".toList part then (beforeFirst "b".toList part, true)
    else if occursIn "rc".toList part then (beforeFirst "rc".toList part, true)
    else (part, false)
  { v with isPrerelease := v.isPrerelease || pre, rest := v.rest ++ [jsParseInt part2] }

/-- `parsePythonPackageVersion` (part_000 lines 54-101). When an epoch
separator `!` is present the source executes `versionString = versionString[1]`,
which is the character of the ORIGINAL string at index 1, not the remainder
after the separator; the embedding reproduces that line as written. -/
def parsePythonPackageVersion (versionString : String) : PythonPackageVersion :=
  let cs := versionString.toList
  let hasEpoch := occursIn "!".toList cs
  let epoch : JSNum := if hasEpoch then jsParseInt (beforeFirst "!".toList cs) else some 0
  let cs2 := if hasEpoch then (cs.drop 1).take 1 else cs
  let parts := splitOnChar '.' cs2
  let v0 : PythonPackageVersion :=
    { epoch := epoch, first := jsParseInt (parts.headD []), rest := [], isPrerelease := false }
  (parts.drop 1).foldl parseRestPart v0

/-- The `for` loop of `greaterThanPythonPackageVersion` (part_000 lines
109-111): walk the common prefix of the two `rest` sequences and decide at the
first pair that compares unequal under JS `!=`. -/
def firstDiffGt : List JSNum → List JSNum → Option Bool
  | x :: xs, y :: ys => if jsNe x y then some (jsGt x y) else firstDiffGt xs ys
  | _, _ => none

/-- `greaterThanPythonPackageVersion` (part_000 lines 103-115). When the loop
finds no unequal pair it falls through to `a.rest.length > b.rest.length`;
peeling pairwise-equal heads does not change that length comparison. -/
def greaterThanPythonPackageVersion (a b : PythonPackageVersion) : Bool :=
  if a.isPrerelease && !b.isPrerelease then false
  else if !a.isPrerelease && b.isPrerelease then true
  else if jsGt a.first b.first then true
  else
    match firstDiffGt a.rest b.rest with
    | some r => r
    | none => decide (a.rest.length > b.rest.length)

/-- The sentinel `bestVersionObject` of `queryDependencyPyPI`
(part_000 line 126). -/
def sentinelVersion : PythonPackageVersion :=
  { epoch := some 0, first := some 0, rest := [], isPrerelease := true }

/-- The release-selection loop of `queryDependencyPyPI` (part_000 lines
125-136): fold over the keys of `data.releases` (given here as a list in
enumeration order), keeping the candidate whenever it compares greater than
the best so far; the network call around the loop is omitted. -/
def queryDependencyPyPIBestVersion (releases : List String) : String :=
  (releases.foldl
    (fun best release =>
      let version := parsePythonPackageVersion release
      if greaterThanPythonPackageVersion version best.2 then (release, version) else best)
    ("0", sentinelVersion)).1

/-! Pagination (`scrapeOrganisation`, `src/src/index.ts` lines 128-163).
The external collaborator `queryRepositories(organisation, cursor)` is a
function from the cursor argument to the page of the response shape the core
consumes (spec section 6); `new Date(resetAt).getTime()` and `Date.now()` are
epoch milliseconds. -/

/-- `response.rateLimit` as consumed by the pagination loop;
`resetAt` is `new Date(resetAt).getTime()` in epoch milliseconds. -/
structure RateLimit where
  remaining : Int
  resetAt : Int
deriving DecidableEq, Repr

/-- One page of the repository query: `repositories.edges[*].cursor`,
`pageInfo` and the reported rate limit. -/
structure RepoPage where
  cursors : List String
  hasNextPage : Bool
  endCursor : Option String
  rateLimit : RateLimit
deriving DecidableEq, Repr

/-- `MINIMUM_GITHUB_POINTS` (index.ts line 126). -/
def MINIMUM_GITHUB_POINTS : Int := 10

/-- The body of the pagination `do` loop (index.ts lines 139-157): append
every cursor of the page, then throw when `remaining < MINIMUM_GITHUB_POINTS`
with `Math.abs(resetDate.getTime() - Date.now()) / 1000` seconds. -/
def scrapePageStep (now : Int) (acc : List String) (page : RepoPage) :
    List String × Option ℚ :=
  let acc2 := acc ++ page.cursors
  if page.rateLimit.remaining < MINIMUM_GITHUB_POINTS then
    (acc2, some (((page.rateLimit.resetAt - now).natAbs : ℚ) / 1000))
  else (acc2, none)

/-- The pagination `do ... while (hasNextPage)` loop (index.ts lines 136-160),
with fuel for the possibly unbounded iteration (`none` = the loop has not
terminated within `fuel` iterations). Line 137 of the source passes `null` as
the cursor argument on every iteration — the `repoCursor` variable it
maintains is never passed — and the embedding reproduces that call as
written. -/
def listCursorsLoop (query : Option String → RepoPage) (now : Int) :
    Nat → List String → Option (Except ℚ (List String))
  | 0, _ => none
  | fuel + 1, acc =>
    let page := query none
    match scrapePageStep now acc page with
    | (_, some w) => some (Except.error w)
    | (acc2, none) =>
      if page.hasNextPage then listCursorsLoop query now fuel acc2
      else some (Except.ok acc2)

/-- The collected cursor list of `scrapeOrganisation` (index.ts lines
131-160): run the pagination loop from an empty accumulator. -/
def listCursors (query : Option String → RepoPage) (now : Int) (fuel : Nat) :
    Option (Except ℚ (List String)) :=
  listCursorsLoop query now fuel []

/-- Modelled from the spec: the pagination loop as section 4.1 describes it,
"each page request depends on the previous page's continuation token" — the
cursor passed to the query is the previous page's `endCursor` (first request:
null). Stated only for comparison with `listCursorsLoop`, which embeds the
source. -/
def listCursorsSpecLoop (query : Option String → RepoPage) (now : Int) :
    Nat → Option String → List String → Option (Except ℚ (List String))
  | 0, _, _ => none
  | fuel + 1, cursor, acc =>
    let page := query cursor
    match scrapePageStep now acc page with
    | (_, some w) => some (Except.error w)
    | (acc2, none) =>
      if page.hasNextPage then listCursorsSpecLoop query now fuel page.endCursor acc2
      else some (Except.ok acc2)

/-! Batched dependency fetch (index.ts lines 161-195). `queryDependencies`
returning a promise that resolves or rejects is a function into `Except`;
the settled results are collected in issue order. The response type is left
as a parameter: the batching logic never inspects it. -/

/-- `repoCursors[0] = null` (index.ts line 162); assigning index 0 of an
empty JS array appends, so an empty cursor list becomes `[null]`. -/
def setFirstNull : List (Option String) → List (Option String)
  | [] => [none]
  | _ :: t => none :: t

/-- The collected cursors as the batch loop sees them: each retrieved cursor,
with the first overwritten by `null`. -/
def prepareCursors (repoCursors : List String) : List (Option String) :=
  setFirstNull (repoCursors.map some)

/-- The anchors `repoCursors[0], repoCursors[3], repoCursors[6], ...` of the
loop `for (curCursor = 0; curCursor < length; curCursor += numOfPages)` with
`numOfPages = 3` (index.ts lines 171-172). -/
def everyThird : List α → List α
  | [] => []
  | [x] => [x]
  | [x, _] => [x]
  | x :: _ :: _ :: t => x :: everyThird t

/-- Settlement of one group's request (index.ts lines 178-185): a resolved
response is pushed to `successfullResponses`, a rejection pushes the group's
anchor cursor to `failedResponses`. -/
def batchStep {R : Type} (query : Option String → Except String R)
    (acc : List R × List (Option String)) (anchor : Option String) :
    List R × List (Option String) :=
  match query anchor with
  | Except.ok r => (acc.1 ++ [r], acc.2)
  | Except.error _ => (acc.1, acc.2 ++ [anchor])

/-- The batched fetch (index.ts lines 167-195): one request per anchor, all
settled, successes and failed anchors collected. -/
def fetchBatches {R : Type} (query : Option String → Except String R)
    (cursors : List (Option String)) : List R × List (Option String) :=
  (everyThird cursors).foldl (batchStep query) ([], [])

/-! Manifest extraction (`getRepoDependencies`, index.ts lines 35-86) and
dependency merging (`mergeDependenciesLists`, index.ts lines 101-122).
JS `Map` is an insertion-ordered association list with unique keys;
JS `Set` is an insertion-ordered duplicate-free list. -/

/-- JS `Map.prototype.get`. -/
def mapGet {β : Type} (m : List (String × β)) (k : String) : Option β :=
  match m with
  | [] => none
  | (k', v) :: t => if k' = k then some v else mapGet t k

/-- JS `Map.prototype.has`. -/
def mapHas {β : Type} (m : List (String × β)) (k : String) : Bool :=
  (mapGet m k).isSome

/-- JS `Map.prototype.set`: update in place when the key is present
(a `Map` holds one entry per key), append otherwise. -/
def mapSet {β : Type} (m : List (String × β)) (k : String) (v : β) :
    List (String × β) :=
  match m with
  | [] => [(k, v)]
  | (k', v') :: t => if k' = k then (k, v) :: t else (k', v') :: mapSet t k v

/-- The list stored under a key, `[]` when the key is absent. -/
def lookupList {α : Type} (m : List (String × List α)) (k : String) : List α :=
  (mapGet m k).getD []

/-- `DependencyGraphDependency`: one declared dependency of a manifest. -/
structure DependencyGraphDependency where
  packageName : String
  requirements : String
deriving DecidableEq, Repr

/-- One manifest file of a repository: `blobPath` from
`dependencyGraphManifests.edges[i].node`, `filename` from the parallel
`dependencyGraphManifests.nodes[i]` (the source walks the two lists with one
shared index), and the file's dependency connection (`totalCount`, `nodes`). -/
structure ManifestFile where
  blobPath : String
  filename : String
  totalCount : Nat
  depNodes : List DependencyGraphDependency
deriving DecidableEq, Repr

/-- An entry of the package map: `blobPathDeps` (index.ts lines 41-43). -/
structure BlobPathDep where
  subPath : String
  blobPath : String
  version : String
  dependencies : List DependencyGraphDependency
deriving DecidableEq, Repr

/-- `blobPathDeps(subPath, blobPath, version, deps)` (index.ts line 41). -/
def blobPathDeps (subPath blobPath version : String)
    (deps : List DependencyGraphDependency) : BlobPathDep :=
  { subPath := subPath, blobPath := blobPath, version := version, dependencies := deps }

/-- The static `packageManagers` table (index.ts lines 36-39). -/
def packageManagers : List (String × List String) :=
  [("NPM", ["package.json"]), ("PYPI", ["requirements.txt"])]

/-- The body of the extension test (index.ts lines 62-80) for one
`(manager, extension)` pair: when the filename ends with the extension,
ensure the manager's bucket exists and push an entry whose dependency list is
the file's nodes when `totalCount > 0` and empty otherwise (`version` is
the constant `""` of line 64). -/
def matchStep (mgrName ext : String) (file : ManifestFile)
    (acc : List (String × List BlobPathDep)) : List (String × List BlobPathDep) :=
  if strEndsWith file.filename ext then
    let acc1 := if mapHas acc mgrName then acc else mapSet acc mgrName []
    let entry :=
      if file.totalCount > 0 then blobPathDeps file.filename file.blobPath "" file.depNodes
      else blobPathDeps file.filename file.blobPath "" []
    mapSet acc1 mgrName (lookupList acc1 mgrName ++ [entry])
  else acc

/-- Processing of one manifest file by the nested
`for packageManager / for ext` loops (index.ts lines 59-82). -/
def addManifestFile (acc : List (String × List BlobPathDep)) (file : ManifestFile) :
    List (String × List BlobPathDep) :=
  packageManagers.foldl
    (fun acc mgr => mgr.2.foldl (fun acc ext => matchStep mgr.1 ext file acc) acc) acc

/-- The `packageMap` built by `getRepoDependencies` (index.ts lines 45-85)
for one repository's manifest files. -/
def getRepoDependencies (files : List ManifestFile) : List (String × List BlobPathDep) :=
  files.foldl addManifestFile []

/-- The `Repository` record of `src/unnamed/part_000` (lines 32-38);
`dependencies` is a JS `Map` from package name to requirement string. -/
structure Repository where
  name : String
  version : String
  link : String
  isArchived : Bool
  dependencies : List (String × String)

/-- JS `Set.prototype.add`: append unless already present. -/
def setAdd (s : List String) (x : String) : List String :=
  if x ∈ s then s else s ++ [x]

/-- The body of the innermost merge loop (index.ts lines 107-111): ensure
the manager's set exists, then add the dependency name to it. -/
def addDepName (deps : List (String × List String)) (pm name : String) :
    List (String × List String) :=
  let d := if mapHas deps pm then deps else mapSet deps pm []
  mapSet d pm (setAdd (lookupList d pm) name)

/-- The per-repository merge loop (index.ts lines 106-112): add every
declared dependency name of the repository under the manager's key. -/
def addRepoDeps (pm : String) (deps : List (String × List String))
    (repo : Repository) : List (String × List String) :=
  repo.dependencies.foldl (fun d nv => addDepName d pm nv.1) deps

/-- `mergeDependenciesLists` (index.ts lines 101-122). The final
`Array.from(value.values())` conversion preserves keys and element order, so
it is the identity in this embedding. -/
def mergeDependenciesLists (managerRepos : List (String × List Repository)) :
    List (String × List String) :=
  managerRepos.foldl (fun deps pr => pr.2.foldl (addRepoDeps pr.1) deps) []

/-! Concrete sources used by the claims about pagination. -/

/-- A cursor-addressed source with two pages: the page at cursor `null`
reports a next page with continuation token `"c1"`, and the page at any
non-null cursor is the final one. Quota is ample on both pages. -/
def twoPageQuery : Option String → RepoPage
  | none =>
    { cursors := ["a1", "a2"], hasNextPage := true, endCursor := some "c1",
      rateLimit := { remaining := 100, resetAt := 0 } }
  | some _ =>
    { cursors := ["b1", "b2"], hasNextPage := false, endCursor := none,
      rateLimit := { remaining := 100, resetAt := 0 } }

/-- On the two-page source the source's loop never terminates: every request
is issued with the `null` cursor, so every response is page 1 again. -/
theorem listCursorsLoop_twoPage_none :
    ∀ (fuel : Nat) (acc : List String), listCursorsLoop twoPageQuery 0 fuel acc = none := by
  intro fuel
  induction fuel with
  | zero => intro acc; rfl
  | succ n ih =>
    intro acc
    simp [listCursorsLoop, twoPageQuery, scrapePageStep, MINIMUM_GITHUB_POINTS, ih]

end Crawler

namespace Crawler

/-- C1: the claim says every page request after the first is issued with the
previous page's `endCursor`, so on a two-page source `listCursors` returns
page 1's cursors followed by page 2's. The code (index.ts line 137) passes
`null` on every request: on the cursor-addressed two-page source the loop
never terminates for any fuel, while the spec-faithful loop that does thread
`endCursor` returns exactly the concatenation. -/
theorem c1_pagination_always_null_cursor :
    (∀ fuel : Nat, listCursors twoPageQuery 0 fuel = none) ∧
    listCursorsSpecLoop twoPageQuery 0 2 none [] =
      some (Except.ok ["a1", "a2", "b1", "b2"]) := by
  constructor
  · intro fuel
    exact listCursorsLoop_twoPage_none fuel []
  · rfl

/-- C2: the claim characterises `greaterThan` for equal prerelease status as
"major exceeds, or majors equal and the first differing component decides, or
the longer sequence wins on a prefix tie", which makes
`greaterThan(parse "1.5", parse "2")` false (major 1 < 2, majors unequal).
The code returns true there: when `a.first > b.first` fails it falls through
to the component loop instead of returning false, so the shorter-major
version wins by component-list length. The claim's example
`"1.2.0" > "1.1.9"` does hold. -/
theorem c2_greater_than_falls_through_on_smaller_major :
    greaterThanPythonPackageVersion
        (parsePythonPackageVersion "1.5") (parsePythonPackageVersion "2") = true ∧
    (parsePythonPackageVersion "1.5").first = some 1 ∧
    (parsePythonPackageVersion "2").first = some 2 ∧
    (parsePythonPackageVersion "1.5").isPrerelease = (parsePythonPackageVersion "2").isPrerelease ∧
    greaterThanPythonPackageVersion
        (parsePythonPackageVersion "1.2.0") (parsePythonPackageVersion "1.1.9") = true := by
  decide

/-- C3: the claim says `parse("1!2.3")` has epoch 1, major 2 and components
`[3]`. The code parses the epoch prefix correctly but then executes
`versionString = versionString[1]` — the character `"!"` at index 1 of the
original string — instead of the remainder after the separator, so the major
is `parseInt("!") = NaN` (`none`) and the components are empty. -/
theorem c3_epoch_remainder_is_char_at_index_one :
    (parsePythonPackageVersion "1!2.3").epoch = some 1 ∧
    (parsePythonPackageVersion "1!2.3").first = none ∧
    (parsePythonPackageVersion "1!2.3").rest = [] := by
  decide

/-- C4 counterexample: the claim says a malformed release string is silently
excluded, the selected best version being the same as if it were absent. With
the single malformed release `"abc"` the selection returns `"abc"` itself,
while with the malformed string absent it returns the sentinel `"0"`. -/
theorem c4_malformed_not_excluded_counterexample :
    queryDependencyPyPIBestVersion ["abc"] = "abc" ∧
    queryDependencyPyPIBestVersion [] = "0" := by
  decide

/-- C4 amended: a malformed release string raises no error, but it is not
excluded from the ranking: it parses to `NaN` numeric fields with the
prerelease flag clear, still participates in the comparison loop, and can be
selected — the sole malformed release `"abc"` is itself returned. -/
theorem c4_malformed_participates :
    (parsePythonPackageVersion "abc").first = none ∧
    (parsePythonPackageVersion "abc").isPrerelease = false ∧
    queryDependencyPyPIBestVersion ["abc"] = "abc" := by
  decide

/-- C5: the claim says the greatest-ranked candidate is kept, the highest
non-prerelease release winning when one exists, and that
`["1.0.0", "1.1.0a1", "2.0.0.dev1"]` selects `"1.0.0"` (which does hold, as
does the empty-set sentinel `"0"`). But over the non-prerelease releases
`["2", "1.5"]` the code selects `"1.5"` even though `"2"` outranks `"1.5"`
under the code's own comparator — the comparator's fall-through on a smaller
major lets a later, lower release displace the highest one, contradicting the
source's own comment that the loop finds the most recent usable version. -/
theorem c5_best_version_not_highest :
    queryDependencyPyPIBestVersion ["2", "1.5"] = "1.5" ∧
    (parsePythonPackageVersion "2").isPrerelease = false ∧
    (parsePythonPackageVersion "1.5").isPrerelease = false ∧
    greaterThanPythonPackageVersion
        (parsePythonPackageVersion "2") (parsePythonPackageVersion "1.5") = true ∧
    queryDependencyPyPIBestVersion ["1.0.0", "1.1.0a1", "2.0.0.dev1"] = "1.0.0" ∧
    queryDependencyPyPIBestVersion [] = "0" := by
  decide

/-- C7: the moment a page reports remaining quota below
`MINIMUM_GITHUB_POINTS` (10), the loop fails with
`|resetAt - now| / 1000` seconds, and the page's cursors have already been
appended to the accumulator by the loop body before the check. -/
theorem c7_quota_exceeded_abort (query : Option String → RepoPage) (now : Int)
    (acc : List String) (fuel : Nat)
    (h : (query none).rateLimit.remaining < MINIMUM_GITHUB_POINTS) :
    scrapePageStep now acc (query none) =
      (acc ++ (query none).cursors,
        some ((((query none).rateLimit.resetAt - now).natAbs : ℚ) / 1000)) ∧
    listCursorsLoop query now (fuel + 1) acc =
      some (Except.error ((((query none).rateLimit.resetAt - now).natAbs : ℚ) / 1000)) := by
  refine ⟨by simp [scrapePageStep, h], ?_⟩
  simp [listCursorsLoop, scrapePageStep, h]

/-- A page whose reported reset time (epoch ms 2000) is already in the past
relative to `now = 5000`, with remaining quota 5. -/
def quotaPage : RepoPage :=
  { cursors := ["x"], hasNextPage := false, endCursor := none,
    rateLimit := { remaining := 5, resetAt := 2000 } }

/-- C7 witness: at `quotaPage` with `now = 5000` the loop aborts with
`|2000 - 5000| / 1000 = 3` seconds and the page's cursor is appended. -/
theorem c7_quota_exceeded_abort_witness :
    scrapePageStep 5000 ["p"] quotaPage = (["p", "x"], some 3) ∧
    listCursorsLoop (fun _ => quotaPage) 5000 (0 + 1) ["p"] =
      some (Except.error 3) := by
  have h := c7_quota_exceeded_abort (fun _ => quotaPage) 5000 ["p"] 0 (by decide)
  have e : ((((fun _ : Option String => quotaPage) none).rateLimit.resetAt - 5000).natAbs : ℚ) / 1000 = 3 := by
    norm_num [quotaPage]
  rw [e] at h
  simpa [quotaPage] using h

/-- Every nonempty cursor list yields its head as the first anchor. -/
theorem everyThird_cons {α : Type} (x : α) (t : List α) :
    ∃ rest, everyThird (x :: t) = x :: rest := by
  match t with
  | [] => exact ⟨[], rfl⟩
  | [a] => exact ⟨[], rfl⟩
  | a :: b :: t' => exact ⟨everyThird t', rfl⟩

/-- The failed-anchor list only grows while the remaining groups settle. -/
theorem mem_snd_foldl_batchStep {R : Type} (q : Option String → Except String R) :
    ∀ (anchors : List (Option String)) (s : List R) (f : List (Option String))
      (x : Option String), x ∈ f → x ∈ (anchors.foldl (batchStep q) (s, f)).2 := by
  intro anchors
  induction anchors with
  | nil => intro s f x hx; simpa using hx
  | cons a rest ih =>
    intro s f x hx
    rw [List.foldl_cons]
    unfold batchStep
    match hq : q a with
    | Except.ok r => exact ih _ _ _ hx
    | Except.error _ => exact ih _ _ _ (by simp [hx])

end Crawler

namespace Crawler

/-- C6: with `numOfPages = 3` and seven cursors the loop anchors one request
at indices 0, 3 and 6 — exactly three requests — and when only the second
request rejects, the successes are the settled results of requests 1 and 3
while the failed list holds request 2's anchor cursor. -/
theorem c6_batch_partial_failure {R : Type} (q : Option String → Except String R)
    (c0 c1 c2 c3 c4 c5 c6 : Option String) (r1 r3 : R) (e : String)
    (h0 : q c0 = Except.ok r1) (h3 : q c3 = Except.error e) (h6 : q c6 = Except.ok r3) :
    everyThird [c0, c1, c2, c3, c4, c5, c6] = [c0, c3, c6] ∧
    fetchBatches q [c0, c1, c2, c3, c4, c5, c6] = ([r1, r3], [c3]) := by
  refine ⟨rfl, ?_⟩
  simp [fetchBatches, everyThird, batchStep, h0, h3, h6]

/-- A dependency query that rejects exactly at the anchor `"k3"` and resolves
with distinct payloads elsewhere. -/
def batchQueryW : Option String → Except String Nat
  | some "k3" => Except.error "boom"
  | some "k6" => Except.ok 3
  | _ => Except.ok 1

/-- C6 witness: seven concrete cursors, second request rejecting. -/
theorem c6_batch_partial_failure_witness :
    everyThird [some "k0", some "k1", some "k2", some "k3", some "k4", some "k5", some "k6"] =
      [some "k0", some "k3", some "k6"] ∧
    fetchBatches batchQueryW
        [some "k0", some "k1", some "k2", some "k3", some "k4", some "k5", some "k6"] =
      ([1, 3], [some "k3"]) :=
  c6_batch_partial_failure batchQueryW (some "k0") (some "k1") (some "k2") (some "k3")
    (some "k4") (some "k5") (some "k6") 1 3 "boom" rfl rfl rfl

/-- C10: before the batched fetch the first element of the collected cursor
list is overwritten with `null`, so the first group's request is anchored at
`null` — the start of the collection — and when the request at the `null`
anchor rejects, the failed list records `null` rather than a cursor. -/
theorem c10_first_cursor_overwritten_null {R : Type} (repoCursors : List String)
    (q : Option String → Except String R) (e : String)
    (h : q none = Except.error e) :
    (everyThird (prepareCursors repoCursors)).headD (some "") = none ∧
    none ∈ (fetchBatches q (prepareCursors repoCursors)).2 := by
  have hp : ∃ t, prepareCursors repoCursors = none :: t := by
    cases repoCursors with
    | nil => exact ⟨[], rfl⟩
    | cons x xs => exact ⟨xs.map some, rfl⟩
  obtain ⟨t, hp⟩ := hp
  obtain ⟨rest, hr⟩ := everyThird_cons (none : Option String) t
  constructor
  · rw [hp, hr]; rfl
  · rw [fetchBatches, hp, hr, List.foldl_cons]
    have hstep : batchStep q (([], []) : List R × List (Option String)) none = ([], [none]) := by
      simp [batchStep, h]
    rw [hstep]
    exact mem_snd_foldl_batchStep q rest [] [none] none (by simp)

/-- A dependency query that rejects exactly at the `null` anchor. -/
def nullFailQuery : Option String → Except String Nat
  | none => Except.error "E"
  | some _ => Except.ok 0

/-- C10 witness: four concrete collected cursors, the request at the
overwritten `null` anchor rejecting. -/
theorem c10_first_cursor_overwritten_null_witness :
    (everyThird (prepareCursors ["u", "v", "w", "x"])).headD (some "") = none ∧
    none ∈ (fetchBatches nullFailQuery (prepareCursors ["u", "v", "w", "x"])).2 :=
  c10_first_cursor_overwritten_null ["u", "v", "w", "x"] nullFailQuery "E" rfl

/-! Lemmas about the JS `Map` embedding, shared by the manifest-extraction
and merge claims. -/

theorem mapGet_mapSet_self {β : Type} :
    ∀ (m : List (String × β)) (k : String) (v : β), mapGet (mapSet m k v) k = some v := by
  intro m
  induction m with
  | nil => intro k v; simp [mapSet, mapGet]
  | cons p t ih =>
    intro k v
    obtain ⟨kh, vh⟩ := p
    by_cases h : kh = k <;> simp [mapSet, mapGet, h, ih]

theorem mapGet_mapSet_ne {β : Type} :
    ∀ (m : List (String × β)) (k k' : String) (v : β), k' ≠ k →
      mapGet (mapSet m k v) k' = mapGet m k' := by
  intro m
  induction m with
  | nil =>
    intro k k' v h
    have hne : ¬ k = k' := fun hc => h hc.symm
    simp [mapSet, mapGet, hne]
  | cons p t ih =>
    intro k k' v h
    obtain ⟨kh, vh⟩ := p
    by_cases hk : kh = k
    · subst hk
      have hne : ¬ kh = k' := fun hc => h hc.symm
      simp [mapSet, mapGet, hne]
    · simp [mapSet, mapGet, hk, ih k k' v h]

/-- Ensuring a key exists (`if (!m.has(k)) m.set(k, empty)`) changes no
looked-up list: the fresh value is empty and lookups of absent keys already
yield the empty list. -/
theorem ensure_lookup {α : Type} (acc : List (String × List α)) (mn m : String) :
    lookupList (if mapHas acc mn then acc else mapSet acc mn []) m = lookupList acc m := by
  by_cases hh : mapHas acc mn
  · simp [hh]
  · simp only [hh, Bool.false_eq_true, if_false]
    by_cases hm : m = mn
    · subst hm
      have hnone : mapGet acc m = none := by
        unfold mapHas at hh
        exact Option.not_isSome_iff_eq_none.mp (by simpa using hh)
      rw [lookupList, mapGet_mapSet_self, lookupList, hnone]
      rfl
    · rw [lookupList, mapGet_mapSet_ne acc mn m [] hm]
      rfl

theorem lookupList_mapSet_self {α : Type} (m : List (String × List α)) (k : String)
    (v : List α) : lookupList (mapSet m k v) k = v := by
  rw [lookupList, mapGet_mapSet_self]
  rfl

theorem lookupList_mapSet_ne {α : Type} (m : List (String × List α)) (k k' : String)
    (v : List α) (h : k' ≠ k) : lookupList (mapSet m k v) k' = lookupList m k' := by
  rw [lookupList, mapGet_mapSet_ne m k k' v h]
  rfl

/-- `matchStep` on a matching filename: ensure the bucket, then push the
entry (empty when the file declares no dependencies). -/
theorem matchStep_eq_pos (mn ext : String) (f : ManifestFile)
    (acc : List (String × List BlobPathDep)) (hend : strEndsWith f.filename ext = true) :
    matchStep mn ext f acc =
      mapSet (if mapHas acc mn then acc else mapSet acc mn []) mn
        (lookupList (if mapHas acc mn then acc else mapSet acc mn []) mn ++
          [if f.totalCount > 0 then blobPathDeps f.filename f.blobPath "" f.depNodes
            else blobPathDeps f.filename f.blobPath "" []]) := by
  simp [matchStep, hend]

/-- `matchStep` on a filename that does not match the extension is the
identity. -/
theorem matchStep_eq_neg (mn ext : String) (f : ManifestFile)
    (acc : List (String × List BlobPathDep)) (hend : strEndsWith f.filename ext = false) :
    matchStep mn ext f acc = acc := by
  simp [matchStep, hend]

/-- Entries already recorded stay recorded through a `matchStep`. -/
theorem matchStep_keeps (mn ext : String) (f : ManifestFile)
    (acc : List (String × List BlobPathDep)) (m : String) (e : BlobPathDep)
    (he : e ∈ lookupList acc m) : e ∈ lookupList (matchStep mn ext f acc) m := by
  by_cases hend : strEndsWith f.filename ext = true
  · rw [matchStep_eq_pos mn ext f acc hend]
    by_cases hm : m = mn
    · subst hm
      rw [lookupList_mapSet_self]
      refine List.mem_append_left _ ?_
      rw [ensure_lookup acc m m]
      exact he
    · rw [lookupList_mapSet_ne _ _ _ _ hm, ensure_lookup acc mn m]
      exact he
  · rw [matchStep_eq_neg mn ext f acc (by simpa using hend)]
    exact he

/-- `matchStep` on a matching file with zero declared dependencies records
the empty-dependency entry under the manager's key. -/
theorem matchStep_adds (mn ext : String) (f : ManifestFile)
    (acc : List (String × List BlobPathDep))
    (hend : strEndsWith f.filename ext = true) (hzero : f.totalCount = 0) :
    blobPathDeps f.filename f.blobPath "" [] ∈ lookupList (matchStep mn ext f acc) mn := by
  rw [matchStep_eq_pos mn ext f acc hend, lookupList_mapSet_self]
  have hng : ¬ f.totalCount > 0 := by omega
  simp [hng]

/-- `addManifestFile` is the two `matchStep`s of the static table, in table
order. -/
theorem addManifestFile_eq (acc : List (String × List BlobPathDep)) (f : ManifestFile) :
    addManifestFile acc f =
      matchStep "PYPI" "requirements.txt" f (matchStep "NPM" "package.json" f acc) := rfl

theorem addManifestFile_keeps (acc : List (String × List BlobPathDep)) (f : ManifestFile)
    (m : String) (e : BlobPathDep) (he : e ∈ lookupList acc m) :
    e ∈ lookupList (addManifestFile acc f) m := by
  rw [addManifestFile_eq]
  exact matchStep_keeps _ _ _ _ _ _ (matchStep_keeps _ _ _ _ _ _ he)

theorem addManifestFile_adds (acc : List (String × List BlobPathDep)) (f : ManifestFile)
    (mgr : String) (exts : List String) (ext : String)
    (hmgr : (mgr, exts) ∈ packageManagers) (hext : ext ∈ exts)
    (hend : strEndsWith f.filename ext = true) (hzero : f.totalCount = 0) :
    blobPathDeps f.filename f.blobPath "" [] ∈ lookupList (addManifestFile acc f) mgr := by
  rw [addManifestFile_eq]
  have hcases :
      (mgr = "NPM" ∧ exts = ["package.json"]) ∨
        (mgr = "PYPI" ∧ exts = ["requirements.txt"]) := by
    simpa [packageManagers, Prod.ext_iff] using hmgr
  rcases hcases with ⟨rfl, rfl⟩ | ⟨rfl, rfl⟩
  · have hx : ext = "package.json" := by simpa using hext
    subst hx
    exact matchStep_keeps _ _ _ _ _ _ (matchStep_adds _ _ _ _ hend hzero)
  · have hx : ext = "requirements.txt" := by simpa using hext
    subst hx
    exact matchStep_adds _ _ _ _ hend hzero

theorem foldl_addManifestFile_keeps :
    ∀ (files : List ManifestFile) (acc : List (String × List BlobPathDep))
      (m : String) (e : BlobPathDep), e ∈ lookupList acc m →
      e ∈ lookupList (files.foldl addManifestFile acc) m := by
  intro files
  induction files with
  | nil => intro acc m e he; simpa using he
  | cons f rest ih =>
    intro acc m e he
    rw [List.foldl_cons]
    exact ih _ m e (addManifestFile_keeps _ _ _ _ he)

end Crawler

namespace Crawler

/-- C8: a manifest file whose name ends with an extension of the static
package-manager table but declares zero dependencies is still recorded in
that manager's bucket as an entry with an empty dependency list, and a file
whose name matches no extension of the table contributes nothing. -/
theorem c8_empty_manifest_recorded_unmatched_ignored (files : List ManifestFile)
    (f g : ManifestFile) (mgr : String) (exts : List String) (ext : String)
    (hmem : f ∈ files) (hmgr : (mgr, exts) ∈ packageManagers) (hext : ext ∈ exts)
    (hend : strEndsWith f.filename ext = true) (hzero : f.totalCount = 0)
    (hg : ∀ p ∈ packageManagers, ∀ e ∈ p.2, strEndsWith g.filename e = false) :
    blobPathDeps f.filename f.blobPath "" [] ∈ lookupList (getRepoDependencies files) mgr ∧
    getRepoDependencies (files ++ [g]) = getRepoDependencies files := by
  constructor
  · obtain ⟨s, t, rfl⟩ := List.append_of_mem hmem
    rw [getRepoDependencies, List.foldl_append, List.foldl_cons]
    exact foldl_addManifestFile_keeps t _ mgr _
      (addManifestFile_adds _ f mgr exts ext hmgr hext hend hzero)
  · have h1 := hg ("NPM", ["package.json"]) (by simp [packageManagers])
      "package.json" (by simp)
    have h2 := hg ("PYPI", ["requirements.txt"]) (by simp [packageManagers])
      "requirements.txt" (by simp)
    rw [getRepoDependencies, getRepoDependencies, List.foldl_append, List.foldl_cons,
      List.foldl_nil, addManifestFile_eq, matchStep_eq_neg _ _ _ _ h2,
      matchStep_eq_neg _ _ _ _ h1]

/-- A `package.json` manifest declaring zero dependencies. -/
def emptyManifestW : ManifestFile :=
  { blobPath := "b", filename := "app/package.json", totalCount := 0, depNodes := [] }

/-- A file matching no extension of the static table. -/
def unmatchedFileW : ManifestFile :=
  { blobPath := "b2", filename := "readme.md", totalCount := 0, depNodes := [] }

/-- C8 witness: one empty `package.json` manifest is recorded under `"NPM"`,
and appending an unmatched file leaves the package map unchanged. -/
theorem c8_empty_manifest_recorded_unmatched_ignored_witness :
    blobPathDeps "app/package.json" "b" "" [] ∈
      lookupList (getRepoDependencies [emptyManifestW]) "NPM" ∧
    getRepoDependencies ([emptyManifestW] ++ [unmatchedFileW]) =
      getRepoDependencies [emptyManifestW] :=
  c8_empty_manifest_recorded_unmatched_ignored [emptyManifestW] emptyManifestW unmatchedFileW
    "NPM" ["package.json"] "package.json" (by decide) (by decide) (by decide) (by decide)
    (by decide) (by decide)

/-! Lemmas about the JS `Set` embedding and the merge loops. -/

theorem setAdd_mem (s : List String) (x y : String) :
    y ∈ setAdd s x ↔ y ∈ s ∨ y = x := by
  by_cases hx : x ∈ s
  · rw [setAdd, if_pos hx]
    constructor
    · exact Or.inl
    · rintro (h | rfl)
      · exact h
      · exact hx
  · rw [setAdd, if_neg hx]
    simp

theorem setAdd_nodup (s : List String) (x : String) (h : s.Nodup) : (setAdd s x).Nodup := by
  by_cases hx : x ∈ s
  · rw [setAdd, if_pos hx]
    exact h
  · rw [setAdd, if_neg hx]
    simp [List.nodup_append, h, hx]

theorem lookupList_addDepName_self (deps : List (String × List String)) (pm name : String) :
    lookupList (addDepName deps pm name) pm = setAdd (lookupList deps pm) name := by
  simp only [addDepName]
  rw [lookupList_mapSet_self, ensure_lookup]

theorem lookupList_addDepName_ne (deps : List (String × List String)) (pm pm' name : String)
    (h : pm' ≠ pm) : lookupList (addDepName deps pm name) pm' = lookupList deps pm' := by
  simp only [addDepName]
  rw [lookupList_mapSet_ne _ _ _ _ h, ensure_lookup]

theorem foldl_addDepName_mem (pm0 : String) :
    ∀ (names : List (String × String)) (deps : List (String × List String)) (pm y : String),
      y ∈ lookupList (names.foldl (fun d nv => addDepName d pm0 nv.1) deps) pm ↔
        y ∈ lookupList deps pm ∨ (pm = pm0 ∧ ∃ v, (y, v) ∈ names) := by
  intro names
  induction names with
  | nil => intro deps pm y; simp
  | cons nv rest ih =>
    intro deps pm y
    rw [List.foldl_cons, ih]
    by_cases hpm : pm = pm0
    · subst hpm
      rw [lookupList_addDepName_self]
      simp only [setAdd_mem, List.mem_cons, Prod.ext_iff, true_and]
      constructor
      · rintro (⟨h | rfl⟩ | ⟨v, hv⟩)
        · exact Or.inl h
        · exact Or.inr ⟨nv.2, Or.inl ⟨rfl, rfl⟩⟩
        · exact Or.inr ⟨v, Or.inr hv⟩
      · rintro (h | ⟨v, ⟨rfl, rfl⟩ | hv⟩)
        · exact Or.inl (Or.inl h)
        · exact Or.inl (Or.inr rfl)
        · exact Or.inr ⟨v, hv⟩
    · rw [lookupList_addDepName_ne _ _ _ _ hpm]
      simp [hpm]

theorem addDepName_nodup (deps : List (String × List String)) (pm name : String)
    (h : ∀ q, (lookupList deps q).Nodup) :
    ∀ q, (lookupList (addDepName deps pm name) q).Nodup := by
  intro q
  by_cases hq : q = pm
  · subst hq
    rw [lookupList_addDepName_self]
    exact setAdd_nodup _ _ (h q)
  · rw [lookupList_addDepName_ne _ _ _ _ hq]
    exact h q

theorem foldl_addDepName_nodup (pm0 : String) :
    ∀ (names : List (String × String)) (deps : List (String × List String)),
      (∀ q, (lookupList deps q).Nodup) →
      ∀ q, (lookupList (names.foldl (fun d nv => addDepName d pm0 nv.1) deps) q).Nodup := by
  intro names
  induction names with
  | nil => intro deps h q; exact h q
  | cons nv rest ih =>
    intro deps h q
    rw [List.foldl_cons]
    exact ih _ (addDepName_nodup _ _ _ h) q

theorem foldl_addRepoDeps_mem (pm0 : String) :
    ∀ (repos : List Repository) (deps : List (String × List String)) (pm y : String),
      y ∈ lookupList (repos.foldl (addRepoDeps pm0) deps) pm ↔
        y ∈ lookupList deps pm ∨
          (pm = pm0 ∧ ∃ r ∈ repos, ∃ v, (y, v) ∈ r.dependencies) := by
  intro repos
  induction repos with
  | nil => intro deps pm y; simp
  | cons r rest ih =>
    intro deps pm y
    rw [List.foldl_cons, ih,
      show addRepoDeps pm0 deps r =
        r.dependencies.foldl (fun d nv => addDepName d pm0 nv.1) deps from rfl,
      foldl_addDepName_mem pm0]
    by_cases hpm : pm = pm0
    all_goals simp [List.exists_mem_cons_iff, hpm]
    all_goals tauto

theorem foldl_addRepoDeps_nodup (pm0 : String) :
    ∀ (repos : List Repository) (deps : List (String × List String)),
      (∀ q, (lookupList deps q).Nodup) →
      ∀ q, (lookupList (repos.foldl (addRepoDeps pm0) deps) q).Nodup := by
  intro repos
  induction repos with
  | nil => intro deps h q; exact h q
  | cons r rest ih =>
    intro deps h q
    rw [List.foldl_cons]
    exact ih _ (fun q' => foldl_addDepName_nodup pm0 r.dependencies deps h q') q

theorem foldl_merge_mem :
    ∀ (input : List (String × List Repository)) (deps : List (String × List String))
      (pm y : String),
      y ∈ lookupList
          (input.foldl (fun deps pr => pr.2.foldl (addRepoDeps pr.1) deps) deps) pm ↔
        y ∈ lookupList deps pm ∨
          ∃ pr ∈ input, pr.1 = pm ∧ ∃ r ∈ pr.2, ∃ v, (y, v) ∈ r.dependencies := by
  intro input
  induction input with
  | nil => intro deps pm y; simp
  | cons pr rest ih =>
    intro deps pm y
    rw [List.foldl_cons, ih, foldl_addRepoDeps_mem pr.1]
    simp only [List.exists_mem_cons_iff]
    constructor
    · rintro ((h | ⟨hpm, hx⟩) | ⟨pr', hpr', hp, hx⟩)
      · exact Or.inl h
      · exact Or.inr (Or.inl ⟨hpm.symm, hx⟩)
      · exact Or.inr (Or.inr ⟨pr', hpr', hp, hx⟩)
    · rintro (h | (⟨hpm, hx⟩ | ⟨pr', hpr', hp, hx⟩))
      · exact Or.inl (Or.inl h)
      · exact Or.inl (Or.inr ⟨hpm.symm, hx⟩)
      · exact Or.inr ⟨pr', hpr', hp, hx⟩

theorem foldl_merge_nodup :
    ∀ (input : List (String × List Repository)) (deps : List (String × List String)),
      (∀ q, (lookupList deps q).Nodup) →
      ∀ q, (lookupList
        (input.foldl (fun deps pr => pr.2.foldl (addRepoDeps pr.1) deps) deps) q).Nodup := by
  intro input
  induction input with
  | nil => intro deps h q; exact h q
  | cons pr rest ih =>
    intro deps h q
    rw [List.foldl_cons]
    exact ih _ (fun q' => foldl_addRepoDeps_nodup pr.1 pr.2 deps h q') q

end Crawler

namespace Crawler

/-- C9: the merged result holds, per package manager, exactly the names
declared by some repository filed under that manager — so the result depends
only on which names are declared, not on how often — and each name appears
exactly once per manager (the per-manager list has no duplicates). -/
theorem c9_merge_is_set_union (input : List (String × List Repository)) (pm y : String) :
    (y ∈ lookupList (mergeDependenciesLists input) pm ↔
      ∃ pr ∈ input, pr.1 = pm ∧ ∃ r ∈ pr.2, ∃ v, (y, v) ∈ r.dependencies) ∧
    (lookupList (mergeDependenciesLists input) pm).Nodup := by
  constructor
  · rw [show mergeDependenciesLists input =
        input.foldl (fun deps pr => pr.2.foldl (addRepoDeps pr.1) deps) [] from rfl,
      foldl_merge_mem]
    simp [lookupList, mapGet]
  · exact foldl_merge_nodup input [] (fun q => by simp [lookupList, mapGet]) pm

end Crawler

